import Mathlib

/-!
Shallow embedding of the tus_client protocol engine (src/lib.rs, src/http.rs,
src/headers.rs) and proofs about its documented behaviour.

Conventions of the embedding:
* Rust `usize` values are `Nat` (no claim exercises overflow).
* A byte is a `Nat` (values < 256 where produced by the codecs).
* `HashMap<String, String>` header maps are association lists; `insertKV`
  mirrors `HashMap::insert` (replace on an existing key, append otherwise) and
  `get_by_key` mirrors the case-insensitive lookup helper of lib.rs.
* Fallible Rust code returns `Except Error α`; an `unwrap`/panic that can be
  reached is modelled by an explicit `Option`/result constructor.
* The HTTP transport is a pure argument: one inspection response plus a
  response stream (`Nat → HttpResponse`, indexed by exchange number).
-/

namespace Tus

/-- Header name constant from src/headers.rs. -/
def UPLOAD_OFFSET : String := "upload-offset"

/-- Header name constant from src/headers.rs. -/
def UPLOAD_LENGTH : String := "upload-length"

/-- Header name constant from src/headers.rs. -/
def TUS_VERSION : String := "tus-version"

/-- Header name constant from src/headers.rs. -/
def TUS_RESUMABLE : String := "tus-resumable"

/-- Header name constant from src/headers.rs. -/
def TUS_EXTENSION : String := "tus-extension"

/-- Header name constant from src/headers.rs. -/
def TUS_MAX_SIZE : String := "tus-max-size"

/-- Header name constant from src/headers.rs. -/
def X_HTTP_METHOD_OVERRIDE : String := "x-http-method-override"

/-- Header name constant from src/headers.rs. -/
def CONTENT_TYPE : String := "content-type"

/-- Header name constant from src/headers.rs. -/
def UPLOAD_METADATA : String := "upload-metadata"

/-- Header name constant from src/headers.rs. -/
def LOCATION : String := "location"

/-- A header map (`type Headers = HashMap<String, String>` in src/http.rs),
modelled as an association list. -/
def Headers := List (String × String)

instance : DecidableEq Headers := by
  unfold Headers
  infer_instance

/-- `HashMap::insert`: replace the value of an existing key, otherwise add the
pair. -/
def insertKV (m : List (String × String)) (k v : String) : List (String × String) :=
  if m.any (fun p => p.1 = k) then
    m.map (fun p => if p.1 = k then (k, v) else p)
  else
    m ++ [(k, v)]

/-- ASCII lowercasing of a string (Rust `str::to_lowercase` on the
all-ASCII header names this client handles). -/
def lowerString (s : String) : String := String.mk (s.toList.map Char.toLower)

/-- The `HeaderMap::get_by_key` helper of src/lib.rs: find the first stored key
whose lowercase form equals the (lowercase) canonical key. -/
def get_by_key (m : List (String × String)) (key : String) : Option String :=
  (m.find? (fun p => lowerString p.1 = key)).map (fun p => p.2)

/-- `enum HttpMethod` from src/http.rs. -/
inductive HttpMethod where
  | Head
  | Patch
  | Options
  | Post
  | Delete
deriving DecidableEq

/-- The `Display` impl of `HttpMethod` (src/http.rs) delegates to `Debug`, so
it prints the bare variant name. -/
def methodToString : HttpMethod → String
  | .Head => "Head"
  | .Patch => "Patch"
  | .Options => "Options"
  | .Post => "Post"
  | .Delete => "Delete"

/-- `struct HttpRequest` from src/http.rs (body is an optional byte slice). -/
structure HttpRequest where
  method : HttpMethod
  headers : List (String × String)
  url : String
  body : Option (List Nat)
deriving DecidableEq

/-- `struct HttpResponse` from src/http.rs. -/
structure HttpResponse where
  headers : List (String × String)
  status_code : Nat
deriving DecidableEq

/-- `enum Error` from src/lib.rs.  Payloads that no claim inspects
(`io::Error`, `ParseIntError`) are dropped. -/
inductive Error where
  | UnexpectedStatusCode (code : Nat)
  | NotFoundError
  | MissingHeader (name : String)
  | IoError
  | ParsingError
  | UnequalSizeError
  | FileReadError
  | WrongUploadOffsetError
  | FileTooLarge
  | HttpHandlerError (msg : String)
deriving DecidableEq

/-- `default_headers` from src/http.rs: the single tus-resumable header. -/
def default_headers : List (String × String) :=
  insertKV [] TUS_RESUMABLE "1.0.0"

/-- Decimal digit character (used to model `usize::to_string`). -/
def natDigitChar : Nat → Char
  | 0 => '0'
  | 1 => '1'
  | 2 => '2'
  | 3 => '3'
  | 4 => '4'
  | 5 => '5'
  | 6 => '6'
  | 7 => '7'
  | 8 => '8'
  | 9 => '9'
  | _ => '0'

/-- Fueled helper for `natToDigits`; the fuel only makes the recursion
structural (any fuel above the number works, see `natToDigitsAux_congr`). -/
def natToDigitsAux (fuel n : Nat) : List Char :=
  match fuel with
  | 0 => []
  | fuel + 1 =>
    if n < 10 then [natDigitChar n]
    else natToDigitsAux fuel (n / 10) ++ [natDigitChar (n % 10)]

/-- Decimal digits of a natural number, most significant first (the digit list
printed by `usize::to_string`). -/
def natToDigits (n : Nat) : List Char :=
  natToDigitsAux (n + 1) n

/-- Model of Rust `usize::to_string` / `ToString for usize`. -/
def natToString (n : Nat) : String :=
  String.mk (natToDigits n)

/-- Value of a digit character. -/
def digitVal (c : Char) : Nat := c.toNat - 48

/-- Fold a digit string into its value (most significant digit first). -/
def digitsVal (cs : List Char) : Nat :=
  cs.foldl (fun a c => a * 10 + digitVal c) 0

/-- Parse a non-empty all-digit character list, as `usize::from_str` does after
stripping an optional sign. -/
def parseDigits : List Char → Option Nat
  | [] => none
  | c :: cs =>
    if (c :: cs).all Char.isDigit then some (digitsVal (c :: cs)) else none

/-- Model of Rust `str::parse::<usize>`: an optional leading plus sign followed
by one or more ASCII digits (overflow is not modelled). -/
def parseUsize (s : String) : Option Nat :=
  match s.toList with
  | [] => none
  | c :: cs => if c = '+' then parseDigits cs else parseDigits (c :: cs)

/-- `Client::create_request` from src/lib.rs: in method-override mode every
request is physically sent as POST and the logical verb is recorded in the
x-http-method-override header. -/
def create_request (use_method_override : Bool) (method : HttpMethod) (url : String)
    (body : Option (List Nat)) (headers : Option (List (String × String))) : HttpRequest :=
  let hs := headers.getD []
  if use_method_override then
    { method := .Post
      url := url
      body := body
      headers := insertKV hs X_HTTP_METHOD_OVERRIDE (methodToString method) }
  else
    { method := method, url := url, body := body, headers := hs }

/-- `create_upload_headers` from src/lib.rs. -/
def create_upload_headers (progress : Nat) : List (String × String) :=
  insertKV (insertKV default_headers CONTENT_TYPE "application/offset+octet-stream")
    UPLOAD_OFFSET (natToString progress)

/-- The HEAD request built by `Client::get_info`. -/
def get_info_request (uo : Bool) (url : String) : HttpRequest :=
  create_request uo .Head url none (some default_headers)

/-- The OPTIONS request built by `Client::get_server_info` (note: it passes
`None` for the headers, so no default headers are attached). -/
def get_server_info_request (uo : Bool) (url : String) : HttpRequest :=
  create_request uo .Options url none none

/-- The DELETE request built by `Client::delete`. -/
def delete_request (uo : Bool) (url : String) : HttpRequest :=
  create_request uo .Delete url none (some default_headers)

/-- One PATCH request of the upload loop in `Client::upload_with_chunk_size`. -/
def upload_chunk_request (uo : Bool) (url : String) (chunk : List Nat) (progress : Nat) :
    HttpRequest :=
  create_request uo .Patch url (some chunk) (some (create_upload_headers progress))

/-! ## UTF-8 codec (models `String::from_utf8` and the byte view of a `&str`) -/

/-- UTF-8 encoding of one scalar value (the byte view Rust takes of a `&str`,
used by `base64::encode(value)` in `create_with_metadata`). -/
def utf8EncodeChar (c : Char) : List Nat :=
  let n := c.toNat
  if n < 128 then [n]
  else if n < 2048 then [192 + n / 64, 128 + n % 64]
  else if n < 65536 then [224 + n / 4096, 128 + n / 64 % 64, 128 + n % 64]
  else [240 + n / 262144, 128 + n / 4096 % 64, 128 + n / 64 % 64, 128 + n % 64]

/-- UTF-8 byte sequence of a string. -/
def utf8Encode (s : String) : List Nat :=
  (s.toList.map utf8EncodeChar).flatten

/-- Is `b` a UTF-8 continuation byte (10xxxxxx)? -/
def isCont (b : Nat) : Bool := 128 ≤ b && b < 192

/-- Extra constraint on the second byte of a three-byte sequence (rules out
overlong forms for lead 0xE0 and surrogates for lead 0xED). -/
def utf8Lead3Ok (b1 b2 : Nat) : Bool :=
  if b1 = 224 then 160 ≤ b2 else if b1 = 237 then b2 < 160 else true

/-- Extra constraint on the second byte of a four-byte sequence (rules out
overlong forms for lead 0xF0 and values above U+10FFFF for lead 0xF4). -/
def utf8Lead4Ok (b1 b2 : Nat) : Bool :=
  if b1 = 240 then 144 ≤ b2 else if b1 = 244 then b2 < 144 else true

/-- Strict UTF-8 decoding of a byte list, the validation done by
`String::from_utf8`.  `none` models a `FromUtf8Error`. -/
def utf8Decode : List Nat → Option (List Char)
  | [] => some []
  | b :: rest =>
    if b < 128 then
      (utf8Decode rest).map (fun cs => Char.ofNat b :: cs)
    else if b < 194 then
      none
    else if b < 224 then
      match rest with
      | b2 :: rest2 =>
        if isCont b2 then
          (utf8Decode rest2).map (fun cs => Char.ofNat ((b - 192) * 64 + (b2 - 128)) :: cs)
        else none
      | _ => none
    else if b < 240 then
      match rest with
      | b2 :: b3 :: rest3 =>
        if isCont b2 && isCont b3 && utf8Lead3Ok b b2 then
          (utf8Decode rest3).map
            (fun cs => Char.ofNat ((b - 224) * 4096 + (b2 - 128) * 64 + (b3 - 128)) :: cs)
        else none
      | _ => none
    else if b < 245 then
      match rest with
      | b2 :: b3 :: b4 :: rest4 =>
        if isCont b2 && isCont b3 && isCont b4 && utf8Lead4Ok b b2 then
          (utf8Decode rest4).map
            (fun cs =>
              Char.ofNat ((b - 240) * 262144 + (b2 - 128) * 4096 + (b3 - 128) * 64 + (b4 - 128))
                :: cs)
        else none
      | _ => none
    else none

/-- `String::from_utf8` as a string-valued decoder. -/
def utf8DecodeString (bytes : List Nat) : Option String :=
  (utf8Decode bytes).map String.mk

/-! ## Base64 codec (models the `base64` crate's standard alphabet) -/

/-- The standard base64 alphabet. -/
def b64Chars : List Char :=
  "ABCDEFGHIJKLMNOPQRSTUVWXYZabcdefghijklmnopqrstuvwxyz0123456789+/".toList

/-- Character for a 6-bit group. -/
def b64Char (n : Nat) : Char := b64Chars.getD n 'A'

/-- Index of a base64 character in the alphabet (`none` for an invalid
character such as a space, `!`, or a misplaced `=`). -/
def b64Index (c : Char) : Option Nat := b64Chars.findIdx? (fun d => d = c)

/-- `base64::encode` on a byte list: 3 bytes become 4 characters, with `=`
padding on the final partial group. -/
def base64EncodeList : List Nat → List Char
  | [] => []
  | [b1] => [b64Char (b1 / 4), b64Char (b1 % 4 * 16), '=', '=']
  | [b1, b2] => [b64Char (b1 / 4), b64Char (b1 % 4 * 16 + b2 / 16), b64Char (b2 % 16 * 4), '=']
  | b1 :: b2 :: b3 :: rest =>
    b64Char (b1 / 4) :: b64Char (b1 % 4 * 16 + b2 / 16) ::
      b64Char (b2 % 16 * 4 + b3 / 64) :: b64Char (b3 % 64) :: base64EncodeList rest

/-- `base64::encode` producing a string. -/
def base64Encode (bytes : List Nat) : String := String.mk (base64EncodeList bytes)

/-- `base64::decode` on a character list: groups of 4 characters, the final
group optionally padded with one or two `=`.  `none` models a decode error. -/
def base64DecodeList : List Char → Option (List Nat)
  | [] => some []
  | [c1, c2, '=', '='] =>
    match b64Index c1, b64Index c2 with
    | some n1, some n2 => some [n1 * 4 + n2 / 16]
    | _, _ => none
  | [c1, c2, c3, '='] =>
    match b64Index c1, b64Index c2, b64Index c3 with
    | some n1, some n2, some n3 => some [n1 * 4 + n2 / 16, n2 % 16 * 16 + n3 / 4]
    | _, _, _ => none
  | c1 :: c2 :: c3 :: c4 :: rest =>
    match b64Index c1, b64Index c2, b64Index c3, b64Index c4, base64DecodeList rest with
    | some n1, some n2, some n3, some n4, some bs =>
      some ((n1 * 4 + n2 / 16) :: (n2 % 16 * 16 + n3 / 4) :: (n3 % 4 * 64 + n4) :: bs)
    | _, _, _, _, _ => none
  | _ => none

/-- `base64::decode` on a string. -/
def base64Decode (s : String) : Option (List Nat) := base64DecodeList s.toList

/-! ## String splitting

Rust's `str::split(sep)` and `str::splitn(2, sep)` on a single-character
separator, modelled structurally on the character list. -/

/-- `str::split(sep)`: split on every occurrence of the separator character;
empty pieces (leading, trailing, between adjacent separators) are kept. -/
def splitChar (sep : Char) : List Char → List (List Char)
  | [] => [[]]
  | c :: cs =>
    if c = sep then [] :: splitChar sep cs
    else
      match splitChar sep cs with
      | [] => [[c]]
      | g :: gs => (c :: g) :: gs

/-- String wrapper for `splitChar`. -/
def splitString (sep : Char) (s : String) : List String :=
  (splitChar sep s.toList).map String.mk

/-- `str::splitn(2, sep)`: the piece before the first separator, and the rest
after it when the separator occurs. -/
def splitFirst (sep : Char) : List Char → List Char × Option (List Char)
  | [] => ([], none)
  | c :: cs =>
    if c = sep then ([], some cs)
    else
      let r := splitFirst sep cs
      (c :: r.1, r.2)

/-! ## Metadata codec -/

/-- Split one metadata entry on the first `:` (`key_val.splitn(2, ':')` in
`get_info`); an entry with no `:` yields an empty value
(`parts.next().unwrap_or_default()`). -/
def metaEntry (kv : String) : String × String :=
  let r := splitFirst ':' kv.toList
  (String.mk r.1, String.mk (r.2.getD []))

/-- The fold in `get_info` building the metadata map: split the decoded text on
`;` and insert each entry into the map. -/
def metaFold (s : String) : List (String × String) :=
  (splitString ';' s).foldl (fun acc kv => insertKV acc (metaEntry kv).1 (metaEntry kv).2) []

/-- Outcome of decoding one upload-metadata header value in `get_info`:
`base64::decode(data).ok()` turns a base64 error into an absent map, while
`String::from_utf8(decoded).unwrap()` panics on invalid UTF-8. -/
inductive MetaDecode where
  | b64Fail
  | utf8Panic
  | ok (m : List (String × String))
deriving DecidableEq

/-- The metadata pipeline of `get_info` applied to a present header value. -/
def decode_metadata (data : String) : MetaDecode :=
  match base64Decode data with
  | none => .b64Fail
  | some bytes =>
    match utf8DecodeString bytes with
    | none => .utf8Panic
    | some s => .ok (metaFold s)

/-- `Vec::join(",")`. -/
def joinWith (sep : String) : List String → String
  | [] => ""
  | [s] => s
  | s :: rest => s ++ sep ++ joinWith sep rest

/-- `encode_metadata` as performed inline by `create_with_metadata`:
`"{key} {base64(value)}"` pairs joined by `,`. -/
def encode_metadata (m : List (String × String)) : String :=
  joinWith "," (m.map (fun kv => kv.1 ++ " " ++ base64Encode (utf8Encode kv.2)))

/-! ## Inspection (`Client::get_info`) -/

/-- `struct UploadInfo` from src/lib.rs. -/
structure UploadInfo where
  bytes_uploaded : Nat
  total_size : Option Nat
  metadata : Option (List (String × String))
deriving DecidableEq

/-- `status_code.to_string().starts_with('4')` from `get_info`: the first
character of the decimal representation is `4`. -/
def statusStartsWith4 (n : Nat) : Bool :=
  match (natToString n).toList with
  | [] => false
  | c :: _ => c = '4'

/-- The `metadata` let-binding of `get_info` before the panic distinction:
absent header gives `none`, otherwise the decode outcome. -/
def respMetaRaw (resp : HttpResponse) : Option MetaDecode :=
  (get_by_key resp.headers UPLOAD_METADATA).map decode_metadata

/-- The metadata field `get_info` stores: an absent header or a failed base64
decode both silently give `none`. -/
def respMetaField (resp : HttpResponse) : Option (List (String × String)) :=
  match respMetaRaw resp with
  | some (.ok m) => some m
  | _ => none

/-- The `total_size` let-binding of `get_info`: absent or non-integer
upload-length headers silently give `none`. -/
def respTotalSize (resp : HttpResponse) : Option Nat :=
  (get_by_key resp.headers UPLOAD_LENGTH).bind parseUsize

/-- `Client::get_info` applied to the response of its HEAD exchange.
`none` models the `String::from_utf8(..).unwrap()` panic on metadata whose
base64 decoding succeeds but is not valid UTF-8; that computation happens
before the status check, so the panic pre-empts every other outcome. -/
def get_info (resp : HttpResponse) : Option (Except Error UploadInfo) :=
  match respMetaRaw resp with
  | some .utf8Panic => none
  | _ =>
    match get_by_key resp.headers UPLOAD_OFFSET, statusStartsWith4 resp.status_code with
    | some v, false =>
      match parseUsize v with
      | none => some (.error .ParsingError)
      | some n =>
        some (.ok { bytes_uploaded := n, total_size := respTotalSize resp,
                    metadata := respMetaField resp })
    | _, _ => some (.error .NotFoundError)

/-! ## Capability negotiation (`Client::get_server_info`) -/

/-- `enum TusExtension` from src/lib.rs. -/
inductive TusExtension where
  | Creation
  | Expiration
  | Checksum
  | Termination
  | Concatenation
deriving DecidableEq

/-- `str::trim`: drop whitespace from both ends. -/
def trimString (s : String) : String :=
  String.mk (((s.toList.dropWhile Char.isWhitespace).reverse.dropWhile
    Char.isWhitespace).reverse)

/-- `FromStr for TusExtension`: trim, lowercase, match the closed set. -/
def tusExtensionFromStr (s : String) : Option TusExtension :=
  match lowerString (trimString s) with
  | "creation" => some .Creation
  | "expiration" => some .Expiration
  | "checksum" => some .Checksum
  | "termination" => some .Termination
  | "concatenation" => some .Concatenation
  | _ => none

/-- `struct ServerInfo` from src/lib.rs. -/
structure ServerInfo where
  supported_versions : List String
  extensions : List TusExtension
  max_upload_size : Option Nat
deriving DecidableEq

/-- `Client::get_server_info` applied to the response of its OPTIONS exchange.
`none` models the `.unwrap()` panic when the tus-version header is absent on a
200/204 response. -/
def get_server_info (resp : HttpResponse) : Option (Except Error ServerInfo) :=
  if resp.status_code = 200 ∨ resp.status_code = 204 then
    match get_by_key resp.headers TUS_VERSION with
    | none => none
    | some v =>
      let supported_versions := splitString ',' v
      let extensions :=
        match get_by_key resp.headers TUS_EXTENSION with
        | some ext => (splitString ',' ext).filterMap tusExtensionFromStr
        | none => []
      let max_upload_size := (get_by_key resp.headers TUS_MAX_SIZE).bind parseUsize
      some (.ok { supported_versions := supported_versions, extensions := extensions,
                  max_upload_size := max_upload_size })
  else
    some (.error (.UnexpectedStatusCode resp.status_code))

/-! ## Resource lifecycle (`Client::create_with_metadata`, `Client::delete`) -/

/-- The headers built by `create_with_metadata`: default headers plus the
declared upload-length, plus the encoded metadata when the map is non-empty. -/
def create_headers (fileLen : Nat) (metadata : List (String × String)) :
    List (String × String) :=
  let hs := insertKV default_headers UPLOAD_LENGTH (natToString fileLen)
  if metadata.isEmpty then hs
  else insertKV hs UPLOAD_METADATA (encode_metadata metadata)

/-- The POST request built by `create_with_metadata`. -/
def create_op_request (uo : Bool) (url : String) (fileLen : Nat)
    (metadata : List (String × String)) : HttpRequest :=
  create_request uo .Post url none (some (create_headers fileLen metadata))

/-- Response handling of `create_with_metadata`. -/
def create_with_metadata (resp : HttpResponse) : Except Error String :=
  if resp.status_code = 413 then .error .FileTooLarge
  else if resp.status_code ≠ 201 then .error (.UnexpectedStatusCode resp.status_code)
  else
    match get_by_key resp.headers LOCATION with
    | none => .error (.MissingHeader LOCATION)
    | some loc => .ok loc

/-- Response handling of `Client::delete`. -/
def delete_op (resp : HttpResponse) : Except Error Unit :=
  if resp.status_code = 204 then .ok () else .error (.UnexpectedStatusCode resp.status_code)

/-! ## Upload engine (`Client::upload_with_chunk_size`) -/

/-- The status and header handling of one PATCH response inside the upload
loop: 409, then 404, then any non-204 status, then the upload-offset header and
its integer parse; `.ok n` is the acknowledged offset the loop adopts as its
new `progress`. -/
def patch_response_outcome (resp : HttpResponse) : Except Error Nat :=
  if resp.status_code = 409 then .error .WrongUploadOffsetError
  else if resp.status_code = 404 then .error .NotFoundError
  else if resp.status_code ≠ 204 then .error (.UnexpectedStatusCode resp.status_code)
  else
    match get_by_key resp.headers UPLOAD_OFFSET with
    | none => .error (.MissingHeader UPLOAD_OFFSET)
    | some v =>
      match parseUsize v with
      | none => .error .ParsingError
      | some n => .ok n

instance {ε α : Type} [DecidableEq ε] [DecidableEq α] : DecidableEq (Except ε α) :=
  fun x y =>
    match x, y with
    | .error a, .error b =>
      if h : a = b then isTrue (congrArg Except.error h)
      else isFalse (fun hx => h (Except.error.inj hx))
    | .ok a, .ok b =>
      if h : a = b then isTrue (congrArg Except.ok h)
      else isFalse (fun hx => h (Except.ok.inj hx))
    | .error _, .ok _ => isFalse (fun hx => Except.noConfusion hx)
    | .ok _, .error _ => isFalse (fun hx => Except.noConfusion hx)

/-- Result of a (fueled) run of the upload engine.  `out` is the modelling
artifact of running out of fuel — the termination theorem shows it is
unreachable with fuel `file.length - cursor + 1`.  `panic` is the
`String::from_utf8` unwrap inside `get_info`.  `done trace result progress`
carries the PATCH requests actually sent, the returned value, and the final
value of the `progress` variable. -/
inductive UploadResult where
  | panic
  | out
  | done (trace : List HttpRequest) (result : Except Error Unit) (progress : Nat)
deriving DecidableEq

/-- The `loop` of `upload_with_chunk_size`.  `cursor` is the `BufReader`
position (after the initial seek it advances only by reads), `progress` the
offset variable, `idx` counts the PATCH exchanges already sent and indexes the
response stream `server`.  Each iteration reads
`min chunkSize (file.length - cursor)` bytes; a zero read returns
`FileReadError`; otherwise the chunk is sent and the response handled by
`patch_response_outcome`; the loop ends when the acknowledged offset reaches
`file.length`. -/
def uploadLoop (fuel : Nat) (uo : Bool) (url : String) (file : List Nat)
    (chunkSize : Nat) (server : Nat → HttpResponse) (idx cursor progress : Nat) :
    UploadResult :=
  match fuel with
  | 0 => .out
  | fuel + 1 =>
    let chunk := (file.drop cursor).take chunkSize
    if chunk.length = 0 then .done [] (.error .FileReadError) progress
    else
      let req := upload_chunk_request uo url chunk progress
      match patch_response_outcome (server idx) with
      | .error e => .done [req] (.error e) progress
      | .ok newProgress =>
        if file.length ≤ newProgress then .done [req] (.ok ()) newProgress
        else
          match uploadLoop fuel uo url file chunkSize server (idx + 1)
              (cursor + chunk.length) newProgress with
          | .done tr r p => .done (req :: tr) r p
          | r => r

/-- `Client::upload_with_chunk_size`: inspect via `get_info`, check the
declared total size against the file length, seek to the reported offset and
run the transfer loop.  The one inspection response is `inspect`; the PATCH
responses come from `server`. -/
def upload_with_chunk_size (fuel : Nat) (uo : Bool) (url : String) (file : List Nat)
    (chunkSize : Nat) (inspect : HttpResponse) (server : Nat → HttpResponse) :
    UploadResult :=
  match get_info inspect with
  | none => .panic
  | some (.error e) => .done [] (.error e) 0
  | some (.ok info) =>
    match info.total_size with
    | some total_size =>
      if file.length ≠ total_size then
        .done [] (.error .UnequalSizeError) info.bytes_uploaded
      else
        uploadLoop fuel uo url file chunkSize server 0 info.bytes_uploaded info.bytes_uploaded
    | none =>
      uploadLoop fuel uo url file chunkSize server 0 info.bytes_uploaded info.bytes_uploaded

/-! ## Test harness servers used by the theorems -/

/-- An inspection response reporting offset `i` (status 200, no declared
length, no metadata). -/
def inspectResp (i : Nat) : HttpResponse :=
  ⟨[(UPLOAD_OFFSET, natToString i)], 200⟩

/-- A server that acknowledges every chunk: the `k`-th PATCH exchange is
answered with status 204 and the offset the client reaches after its `k+1`-st
chunk of size `c` starting from `i`, capped at the total size `L`. -/
def ackServer (L i c : Nat) (k : Nat) : HttpResponse :=
  ⟨[(UPLOAD_OFFSET, natToString (min (i + (k + 1) * c) L))], 204⟩

/-- The PATCH requests an acknowledged upload from offset `p` produces:
exchange `j` carries the bytes of `file` from position `p + j * c`, at most `c`
of them, with upload-offset `p + j * c`. -/
def ackTrace (uo : Bool) (url : String) (file : List Nat) (c p count : Nat) :
    List HttpRequest :=
  (List.range count).map
    (fun j => upload_chunk_request uo url ((file.drop (p + j * c)).take c) (p + j * c))

/-! ## Decimal print/parse round trip -/

theorem natDigitChar_isDigit (d : Nat) (h : d < 10) : (natDigitChar d).isDigit = true := by
  interval_cases d <;> decide

theorem digitVal_natDigitChar (d : Nat) (h : d < 10) : digitVal (natDigitChar d) = d := by
  interval_cases d <;> decide

theorem parseDigits_eq_some {l : List Char} {v : Nat} (h : parseDigits l = some v) :
    l ≠ [] ∧ l.all Char.isDigit = true ∧ digitsVal l = v := by
  cases l with
  | nil => simp [parseDigits] at h
  | cons c cs =>
    rw [parseDigits] at h
    split at h
    · rename_i hall
      exact ⟨by simp, hall, by injection h⟩
    · exact absurd h (by simp)

theorem parseDigits_of_all {l : List Char} (hne : l ≠ [])
    (hall : l.all Char.isDigit = true) : parseDigits l = some (digitsVal l) := by
  cases l with
  | nil => exact absurd rfl hne
  | cons c cs => rw [parseDigits, if_pos hall]

theorem digitsVal_append_digit (l : List Char) (d : Char) :
    digitsVal (l ++ [d]) = digitsVal l * 10 + digitVal d := by
  simp [digitsVal, List.foldl_append]

theorem parseDigits_natToDigitsAux (fuel : Nat) :
    ∀ n, n < fuel → parseDigits (natToDigitsAux fuel n) = some n := by
  induction fuel with
  | zero => intro n h; omega
  | succ fuel ih =>
    intro n h
    rw [natToDigitsAux]
    split
    · rename_i hlt
      rw [parseDigits]
      rw [if_pos (by simp [natDigitChar_isDigit n hlt])]
      simp [digitsVal, digitVal_natDigitChar n hlt]
    · rename_i hge
      have hfuel : n / 10 < fuel := by omega
      obtain ⟨hne, hall, hval⟩ := parseDigits_eq_some (ih (n / 10) hfuel)
      have hd : n % 10 < 10 := Nat.mod_lt n (by omega)
      have hall2 : (natToDigitsAux fuel (n / 10) ++ [natDigitChar (n % 10)]).all
          Char.isDigit = true := by
        rw [List.all_append, hall]
        simp [natDigitChar_isDigit _ hd]
      rw [parseDigits_of_all (by simp [hne]) hall2]
      rw [digitsVal_append_digit, hval, digitVal_natDigitChar _ hd]
      congr 1
      omega

theorem parseDigits_natToDigits (n : Nat) : parseDigits (natToDigits n) = some n :=
  parseDigits_natToDigitsAux (n + 1) n (Nat.lt_succ_self n)

theorem isDigit_ne_plus {c : Char} (h : c.isDigit = true) : c ≠ '+' := by
  intro hc
  rw [hc] at h
  exact absurd h (by decide)

theorem parseUsize_natToString (n : Nat) : parseUsize (natToString n) = some n := by
  obtain ⟨hne, hall, -⟩ := parseDigits_eq_some (parseDigits_natToDigits n)
  rw [parseUsize]
  show (match natToDigits n with
    | [] => none
    | c :: cs => if c = '+' then parseDigits cs else parseDigits (c :: cs)) = some n
  cases hl : natToDigits n with
  | nil => exact absurd hl hne
  | cons c cs =>
    rw [hl] at hall
    have hc : c.isDigit = true := by
      rw [List.all_cons] at hall
      exact (Bool.and_eq_true_iff.mp hall).1
    dsimp only
    rw [if_neg (isDigit_ne_plus hc)]
    rw [← hl]
    exact parseDigits_natToDigits n

/-! ## Header lookup lemmas -/

theorem get_by_key_nil (key : String) : get_by_key [] key = none := rfl

theorem get_by_key_cons (k v key : String) (rest : List (String × String)) :
    get_by_key ((k, v) :: rest) key =
      if lowerString k = key then some v else get_by_key rest key := by
  unfold get_by_key
  rw [List.find?_cons]
  by_cases h : lowerString k = key
  · simp [h]
  · simp [h]

/-! ## `get_info` case lemmas -/

theorem get_info_of_panic (resp : HttpResponse)
    (h : respMetaRaw resp = some .utf8Panic) : get_info resp = none := by
  unfold get_info
  rw [h]

theorem get_info_of_not_found (resp : HttpResponse)
    (hm : respMetaRaw resp ≠ some .utf8Panic)
    (h : statusStartsWith4 resp.status_code = true ∨
      get_by_key resp.headers UPLOAD_OFFSET = none) :
    get_info resp = some (.error .NotFoundError) := by
  unfold get_info
  cases hraw : respMetaRaw resp with
  | none =>
    cases hoff : get_by_key resp.headers UPLOAD_OFFSET with
    | none => rfl
    | some v =>
      cases h4 : statusStartsWith4 resp.status_code with
      | false =>
        rw [hoff, h4] at h
        rcases h with h | h
        · exact absurd h (by simp)
        · exact absurd h (by simp)
      | true => rfl
  | some md =>
    cases md with
    | utf8Panic => exact absurd hraw hm
    | b64Fail =>
      cases hoff : get_by_key resp.headers UPLOAD_OFFSET with
      | none => rfl
      | some v =>
        cases h4 : statusStartsWith4 resp.status_code with
        | false =>
          rw [hoff, h4] at h
          rcases h with h | h
          · exact absurd h (by simp)
          · exact absurd h (by simp)
        | true => rfl
    | ok m =>
      cases hoff : get_by_key resp.headers UPLOAD_OFFSET with
      | none => rfl
      | some v =>
        cases h4 : statusStartsWith4 resp.status_code with
        | false =>
          rw [hoff, h4] at h
          rcases h with h | h
          · exact absurd h (by simp)
          · exact absurd h (by simp)
        | true => rfl

theorem get_info_of_offset (resp : HttpResponse) (v : String)
    (hm : respMetaRaw resp ≠ some .utf8Panic)
    (h4 : statusStartsWith4 resp.status_code = false)
    (hoff : get_by_key resp.headers UPLOAD_OFFSET = some v) :
    get_info resp =
      match parseUsize v with
      | none => some (.error .ParsingError)
      | some n =>
        some (.ok { bytes_uploaded := n, total_size := respTotalSize resp,
                    metadata := respMetaField resp }) := by
  unfold get_info
  cases hraw : respMetaRaw resp with
  | none => rw [hoff, h4]
  | some md =>
    cases md with
    | utf8Panic => exact absurd hraw hm
    | b64Fail => rw [hoff, h4]
    | ok m => rw [hoff, h4]

theorem get_info_of_ok (resp : HttpResponse) (v : String) (n : Nat)
    (hm : respMetaRaw resp ≠ some .utf8Panic)
    (h4 : statusStartsWith4 resp.status_code = false)
    (hoff : get_by_key resp.headers UPLOAD_OFFSET = some v)
    (hp : parseUsize v = some n) :
    get_info resp =
      some (.ok { bytes_uploaded := n, total_size := respTotalSize resp,
                  metadata := respMetaField resp }) := by
  rw [get_info_of_offset resp v hm h4 hoff, hp]

/-! ## PATCH response handling lemmas -/

theorem patch_response_outcome_409 (resp : HttpResponse) (h : resp.status_code = 409) :
    patch_response_outcome resp = .error .WrongUploadOffsetError := by
  unfold patch_response_outcome
  rw [if_pos h]

theorem patch_response_outcome_404 (resp : HttpResponse) (h : resp.status_code = 404) :
    patch_response_outcome resp = .error .NotFoundError := by
  unfold patch_response_outcome
  rw [if_neg (by omega), if_pos h]

theorem patch_response_outcome_other (resp : HttpResponse) (h409 : resp.status_code ≠ 409)
    (h404 : resp.status_code ≠ 404) (h204 : resp.status_code ≠ 204) :
    patch_response_outcome resp = .error (.UnexpectedStatusCode resp.status_code) := by
  unfold patch_response_outcome
  rw [if_neg h409, if_neg h404, if_pos h204]

theorem patch_response_outcome_204 (resp : HttpResponse) (h : resp.status_code = 204) :
    patch_response_outcome resp =
      match get_by_key resp.headers UPLOAD_OFFSET with
      | none => .error (.MissingHeader UPLOAD_OFFSET)
      | some v =>
        match parseUsize v with
        | none => .error .ParsingError
        | some n => .ok n := by
  unfold patch_response_outcome
  rw [if_neg (by omega), if_neg (by omega), if_neg (by omega)]

theorem patch_response_outcome_ackServer (L i c k : Nat) :
    patch_response_outcome (ackServer L i c k) = .ok (min (i + (k + 1) * c) L) := by
  rw [patch_response_outcome_204 _ rfl]
  show (match get_by_key [(UPLOAD_OFFSET, natToString (min (i + (k + 1) * c) L))]
      UPLOAD_OFFSET with
    | none => Except.error (Error.MissingHeader UPLOAD_OFFSET)
    | some v =>
      match parseUsize v with
      | none => Except.error Error.ParsingError
      | some n => Except.ok n) = Except.ok (min (i + (k + 1) * c) L)
  rw [get_by_key_cons, if_pos (by decide : lowerString UPLOAD_OFFSET = UPLOAD_OFFSET)]
  dsimp only
  rw [parseUsize_natToString]

/-! ## Loop length bookkeeping -/

theorem length_take_drop (file : List Nat) (cursor c : Nat) :
    ((file.drop cursor).take c).length = min c (file.length - cursor) := by
  simp [List.length_take, List.length_drop]

/-- Termination of the transfer loop for an arbitrary response stream: fuel
exceeding the unread byte count is never exhausted, because every iteration
either returns or advances the read cursor by at least one byte. -/
theorem uploadLoop_ne_out (uo : Bool) (url : String) (file : List Nat) (chunkSize : Nat)
    (server : Nat → HttpResponse) :
    ∀ fuel idx cursor progress, file.length - cursor < fuel →
      uploadLoop fuel uo url file chunkSize server idx cursor progress ≠ .out := by
  intro fuel
  induction fuel with
  | zero => intro idx cursor progress h; omega
  | succ fuel ih =>
    intro idx cursor progress h
    rw [uploadLoop]
    dsimp only
    split
    · exact fun hx => UploadResult.noConfusion hx
    · rename_i hlen
      split
      · exact fun hx => UploadResult.noConfusion hx
      · rename_i newProgress hout
        split
        · exact fun hx => UploadResult.noConfusion hx
        · rename_i hcont
          have hbound : ((file.drop cursor).take chunkSize).length ≤ file.length - cursor := by
            rw [length_take_drop]; omega
          have hrec := ih (idx + 1) (cursor + ((file.drop cursor).take chunkSize).length)
            newProgress (by omega)
          cases hr : uploadLoop fuel uo url file chunkSize server (idx + 1)
              (cursor + ((file.drop cursor).take chunkSize).length) newProgress with
          | panic => exact fun hx => UploadResult.noConfusion hx
          | out => exact absurd hr hrec
          | done tr r p => exact fun hx => UploadResult.noConfusion hx

/-! ## The acknowledged upload run -/

theorem ackTrace_zero (uo : Bool) (url : String) (file : List Nat) (c p : Nat) :
    ackTrace uo url file c p 0 = [] := rfl

theorem ackTrace_succ (uo : Bool) (url : String) (file : List Nat) (c p m : Nat) :
    ackTrace uo url file c p (m + 1) =
      upload_chunk_request uo url ((file.drop p).take c) p ::
        ackTrace uo url file c (p + c) m := by
  unfold ackTrace
  rw [List.range_succ_eq_map, List.map_cons, List.map_map]
  congr 1
  · show upload_chunk_request uo url ((file.drop (p + 0 * c)).take c) (p + 0 * c) = _
    norm_num
  · apply List.map_congr_left
    intro j hj
    show upload_chunk_request uo url ((file.drop (p + (j + 1) * c)).take c) (p + (j + 1) * c)
      = upload_chunk_request uo url ((file.drop (p + c + j * c)).take c) (p + c + j * c)
    have harith : p + (j + 1) * c = p + c + j * c := by
      rw [Nat.succ_mul]; omega
    rw [harith]

theorem ceilCount_eq_one {L p c : Nat} (_hc : 1 ≤ c) (h1 : p < L) (h2 : L ≤ p + c) :
    (L - p + c - 1) / c = 1 := by
  apply Nat.div_eq_of_lt_le
  · omega
  · omega

theorem ceilCount_succ {L p c : Nat} (hc : 1 ≤ c) (h : p + c < L) :
    (L - p + c - 1) / c = (L - (p + c) + c - 1) / c + 1 := by
  have harith : L - p + c - 1 = (L - (p + c) + c - 1) + c := by omega
  rw [harith, Nat.add_div_right _ (by omega)]

/-- Main loop invariant for an always-acknowledging server: starting at
progress `p = i + k * c` with `p < L`, the loop sends exactly
`⌈(L − p) / c⌉` chunks (the `j`-th from offset `p + j * c`, of size
`min c (L − (p + j * c))`) and finishes successfully at offset `L`. -/
theorem uploadLoop_ackServer (uo : Bool) (url : String) (file : List Nat) (L i c : Nat)
    (hL : file.length = L) (hc : 1 ≤ c) :
    ∀ fuel k p, p = i + k * c → p < L → L - p < fuel →
      uploadLoop fuel uo url file c (ackServer L i c) k p p =
        .done (ackTrace uo url file c p ((L - p + c - 1) / c)) (.ok ()) L := by
  intro fuel
  induction fuel with
  | zero => intro k p hp hpL hf; omega
  | succ fuel ih =>
    intro k p hp hpL hf
    rw [uploadLoop]
    dsimp only
    have hlen : ((file.drop p).take c).length = min c (L - p) := by
      rw [length_take_drop, hL]
    rw [if_neg (by rw [hlen]; omega)]
    rw [patch_response_outcome_ackServer]
    dsimp only
    have hstep : i + (k + 1) * c = p + c := by
      rw [Nat.succ_mul]; omega
    rw [hstep]
    by_cases hend : L ≤ p + c
    · rw [Nat.min_eq_right hend, hL, if_pos (Nat.le_refl L)]
      rw [ceilCount_eq_one hc hpL hend, ackTrace_succ, ackTrace_zero]
    · rw [Nat.min_eq_left (by omega), hL, if_neg hend]
      rw [hlen, Nat.min_eq_left (by omega)]
      have hrec := ih (k + 1) (p + c) hstep.symm (by omega) (by omega)
      rw [hrec]
      dsimp only
      rw [ceilCount_succ hc (show p + c < L by omega)]
      conv_rhs => rw [ackTrace_succ]

/-! ## Inspection of the simple offset-only response -/

theorem respMetaRaw_inspectResp (i : Nat) : respMetaRaw (inspectResp i) = none := by
  unfold respMetaRaw inspectResp
  rw [get_by_key_cons, if_neg (by decide), get_by_key_nil]
  rfl

theorem respMetaField_inspectResp (i : Nat) : respMetaField (inspectResp i) = none := by
  unfold respMetaField
  rw [respMetaRaw_inspectResp]

theorem respTotalSize_inspectResp (i : Nat) : respTotalSize (inspectResp i) = none := by
  unfold respTotalSize inspectResp
  rw [get_by_key_cons, if_neg (by decide), get_by_key_nil]
  rfl

theorem get_info_inspectResp (i : Nat) :
    get_info (inspectResp i) = some (.ok ⟨i, none, none⟩) := by
  have h4 : statusStartsWith4 (inspectResp i).status_code = false := by
    show statusStartsWith4 200 = false
    decide
  have hoff : get_by_key (inspectResp i).headers UPLOAD_OFFSET = some (natToString i) := by
    show get_by_key [(UPLOAD_OFFSET, natToString i)] UPLOAD_OFFSET = _
    rw [get_by_key_cons, if_pos (by decide)]
  have hm : respMetaRaw (inspectResp i) ≠ some .utf8Panic := by
    rw [respMetaRaw_inspectResp]; simp
  rw [get_info_of_ok _ _ i hm h4 hoff (parseUsize_natToString i)]
  rw [respTotalSize_inspectResp, respMetaField_inspectResp]

/-- Top-level run of `upload_with_chunk_size` against the offset-reporting
inspection and the always-acknowledging server, for a not-yet-complete
upload. -/
theorem upload_ackServer_run (uo : Bool) (url : String) (file : List Nat) (L i c : Nat)
    (hL : file.length = L) (hc : 1 ≤ c) (hiL : i < L) :
    upload_with_chunk_size (L + 1) uo url file c (inspectResp i) (ackServer L i c) =
      .done (ackTrace uo url file c i ((L - i + c - 1) / c)) (.ok ()) L := by
  unfold upload_with_chunk_size
  rw [get_info_inspectResp]
  dsimp only
  exact uploadLoop_ackServer uo url file L i c hL hc (L + 1) 0 i (by omega) hiL (by omega)

/-- Top-level run when the server already reports the full length: the first
read returns zero bytes and the code returns `FileReadError` with no PATCH
exchange sent. -/
theorem upload_complete_offset_run (fuel : Nat) (uo : Bool) (url : String) (file : List Nat)
    (c : Nat) (server : Nat → HttpResponse) (i : Nat) (hi : file.length ≤ i)
    (hfuel : 1 ≤ fuel) :
    upload_with_chunk_size fuel uo url file c (inspectResp i) server =
      .done [] (.error .FileReadError) i := by
  unfold upload_with_chunk_size
  rw [get_info_inspectResp]
  dsimp only
  cases fuel with
  | zero => omega
  | succ fuel =>
    rw [uploadLoop]
    dsimp only
    rw [if_pos (by rw [length_take_drop]; omega)]

/-! ## Header construction lemmas -/

theorem insertKV_of_absent (m : List (String × String)) (k v : String)
    (h : m.any (fun p => p.1 = k) = false) : insertKV m k v = m ++ [(k, v)] := by
  unfold insertKV
  simp [h]

theorem default_headers_eq : default_headers = [(TUS_RESUMABLE, "1.0.0")] := by decide

theorem create_upload_headers_eq (progress : Nat) :
    create_upload_headers progress =
      [(TUS_RESUMABLE, "1.0.0"), (CONTENT_TYPE, "application/offset+octet-stream"),
       (UPLOAD_OFFSET, natToString progress)] := by
  unfold create_upload_headers
  rw [default_headers_eq]
  rw [insertKV_of_absent _ _ _ (by decide)]
  rw [insertKV_of_absent _ _ _ (by decide)]
  rfl

theorem create_headers_nil (fileLen : Nat) :
    create_headers fileLen [] =
      [(TUS_RESUMABLE, "1.0.0"), (UPLOAD_LENGTH, natToString fileLen)] := by
  unfold create_headers
  rw [default_headers_eq, insertKV_of_absent _ _ _ (by decide)]
  rfl

theorem create_headers_cons (fileLen : Nat) (kv : String × String)
    (rest : List (String × String)) :
    create_headers fileLen (kv :: rest) =
      [(TUS_RESUMABLE, "1.0.0"), (UPLOAD_LENGTH, natToString fileLen),
       (UPLOAD_METADATA, encode_metadata (kv :: rest))] := by
  unfold create_headers
  rw [default_headers_eq, insertKV_of_absent _ _ _ (by decide)]
  show insertKV [(TUS_RESUMABLE, "1.0.0"), (UPLOAD_LENGTH, natToString fileLen)]
    UPLOAD_METADATA (encode_metadata (kv :: rest)) = _
  have hany : ([(TUS_RESUMABLE, "1.0.0"), (UPLOAD_LENGTH, natToString fileLen)].any
      (fun p => p.1 = UPLOAD_METADATA)) = false := by
    simp only [List.any_cons, List.any_nil, Bool.or_eq_false_iff, decide_eq_false_iff_not]
    exact ⟨by decide, by decide, trivial⟩
  rw [insertKV_of_absent _ _ _ hany]
  rfl

/-! ## The loop never reports a size mismatch -/

theorem patch_response_outcome_ne_unequal (resp : HttpResponse) :
    patch_response_outcome resp ≠ .error .UnequalSizeError := by
  unfold patch_response_outcome
  split
  · simp
  · split
    · simp
    · split
      · simp
      · split
        · simp
        · split
          · simp
          · simp

theorem uploadLoop_ne_unequal (uo : Bool) (url : String) (file : List Nat)
    (chunkSize : Nat) (server : Nat → HttpResponse) :
    ∀ fuel idx cursor progress tr p,
      uploadLoop fuel uo url file chunkSize server idx cursor progress ≠
        .done tr (.error .UnequalSizeError) p := by
  intro fuel
  induction fuel with
  | zero =>
    intro idx cursor progress tr p
    rw [uploadLoop]
    exact fun hx => UploadResult.noConfusion hx
  | succ fuel ih =>
    intro idx cursor progress tr p
    rw [uploadLoop]
    dsimp only
    split
    · intro hx
      rw [UploadResult.done.injEq] at hx
      exact absurd hx.2.1.symm (by simp)
    · split
      · rename_i e hout
        intro hx
        rw [UploadResult.done.injEq] at hx
        have he : e = Error.UnequalSizeError := Except.error.inj hx.2.1
        rw [he] at hout
        exact patch_response_outcome_ne_unequal _ hout
      · rename_i newProgress hout
        split
        · intro hx
          rw [UploadResult.done.injEq] at hx
          exact absurd hx.2.1.symm (by simp)
        · cases hr : uploadLoop fuel uo url file chunkSize server (idx + 1)
              (cursor + ((file.drop cursor).take chunkSize).length) newProgress with
          | panic => exact fun hx => UploadResult.noConfusion hx
          | out => exact fun hx => UploadResult.noConfusion hx
          | done tr' r' p' =>
            intro hx
            rw [UploadResult.done.injEq] at hx
            exact ih (idx + 1) (cursor + ((file.drop cursor).take chunkSize).length)
              newProgress tr' p' (by rw [hr, hx.2.1])

theorem ackTrace_length (uo : Bool) (url : String) (file : List Nat) (c p count : Nat) :
    (ackTrace uo url file c p count).length = count := by
  simp [ackTrace]

theorem ackTrace_getElem (uo : Bool) (url : String) (file : List Nat) (c p count j : Nat)
    (h : j < count) :
    (ackTrace uo url file c p count)[j]? =
      some (upload_chunk_request uo url ((file.drop (p + j * c)).take c) (p + j * c)) := by
  unfold ackTrace
  rw [List.getElem?_map, List.getElem?_range h]
  rfl

/-! ## Claims -/

/-- C1: resume correctness of `upload_with_chunk_size`.  For `i ≤ L` and
`c ≥ 1`, against a server that reports offset `i` on inspection and
acknowledges every chunk: when `i < L` the upload sends exactly
`⌈(L − i) / c⌉` PATCH exchanges, the `j`-th carrying the
`min c (L − (i + j·c))` bytes of the file from position `i + j·c`, ends with
acknowledged offset `L` and returns success.  When `i = L` (in particular the
empty file `L = 0`), however, the code sends zero transfer exchanges and
returns `FileReadError` instead of succeeding: the loop reads before comparing
the resume offset with the file length, which is the code bug this claim
exposes. -/
theorem claim_C1 (uo : Bool) (url : String) (file : List Nat) (L i c : Nat)
    (hL : file.length = L) (_hi : i ≤ L) (hc : 1 ≤ c) :
    (i < L →
      upload_with_chunk_size (L + 1) uo url file c (inspectResp i) (ackServer L i c) =
        .done (ackTrace uo url file c i ((L - i + c - 1) / c)) (.ok ()) L ∧
      (ackTrace uo url file c i ((L - i + c - 1) / c)).length = (L - i + c - 1) / c ∧
      (∀ j, j < (L - i + c - 1) / c →
        (ackTrace uo url file c i ((L - i + c - 1) / c))[j]? =
          some (upload_chunk_request uo url ((file.drop (i + j * c)).take c) (i + j * c)) ∧
        ((file.drop (i + j * c)).take c).length = min c (L - (i + j * c)))) ∧
    (i = L →
      ∀ server : Nat → HttpResponse,
        upload_with_chunk_size (L + 1) uo url file c (inspectResp i) server =
          .done [] (.error .FileReadError) i) := by
  constructor
  · intro hiL
    refine ⟨upload_ackServer_run uo url file L i c hL hc hiL,
      ackTrace_length uo url file c i ((L - i + c - 1) / c), fun j hj => ?_⟩
    exact ⟨ackTrace_getElem uo url file c i ((L - i + c - 1) / c) j hj,
      by rw [length_take_drop, hL]⟩
  · intro hiL server
    exact upload_complete_offset_run (L + 1) uo url file c server i (by omega) (by omega)

theorem claim_C1_witness :
    upload_with_chunk_size 6 false "/r" [10, 11, 12, 13, 14] 2 (inspectResp 2)
        (ackServer 5 2 2) =
      .done (ackTrace false "/r" [10, 11, 12, 13, 14] 2 2 2) (.ok ()) 5 ∧
    upload_with_chunk_size 1 false "/r" [] 3 (inspectResp 0) (fun _ => ⟨[], 204⟩) =
      .done [] (.error .FileReadError) 0 := by
  constructor
  · exact ((claim_C1 false "/r" [10, 11, 12, 13, 14] 5 2 2 rfl (by omega) (by omega)).1
      (by omega)).1
  · exact (claim_C1 false "/r" [] 0 0 3 rfl (by omega) (by omega)).2 rfl
      (fun _ => ⟨[], 204⟩)

/-- C2: status and header mapping of every PATCH exchange in the upload loop:
409 fails with `WrongUploadOffsetError`, 404 with `NotFoundError`, any other
non-204 status with `UnexpectedStatusCode` carrying the literal code; on 204 a
missing upload-offset header fails with `MissingHeader "upload-offset"`, a
malformed one with `ParsingError`, and a well-formed one becomes the loop's
new resume offset (the recursive call continues with progress `n`). -/
theorem claim_C2 (resp : HttpResponse) :
    (resp.status_code = 409 →
      patch_response_outcome resp = .error .WrongUploadOffsetError) ∧
    (resp.status_code = 404 → patch_response_outcome resp = .error .NotFoundError) ∧
    (resp.status_code ≠ 409 → resp.status_code ≠ 404 → resp.status_code ≠ 204 →
      patch_response_outcome resp = .error (.UnexpectedStatusCode resp.status_code)) ∧
    (resp.status_code = 204 → get_by_key resp.headers UPLOAD_OFFSET = none →
      patch_response_outcome resp = .error (.MissingHeader UPLOAD_OFFSET)) ∧
    (∀ v, resp.status_code = 204 → get_by_key resp.headers UPLOAD_OFFSET = some v →
      parseUsize v = none → patch_response_outcome resp = .error .ParsingError) ∧
    (∀ v n, resp.status_code = 204 → get_by_key resp.headers UPLOAD_OFFSET = some v →
      parseUsize v = some n → patch_response_outcome resp = .ok n) ∧
    (∀ n fuel uo url file chunkSize server idx cursor progress,
      server idx = resp → ((file.drop cursor).take chunkSize).length ≠ 0 →
      patch_response_outcome resp = .ok n → n < file.length →
      uploadLoop (fuel + 1) uo url file chunkSize server idx cursor progress =
        match uploadLoop fuel uo url file chunkSize server (idx + 1)
            (cursor + ((file.drop cursor).take chunkSize).length) n with
        | .done tr r p =>
          .done (upload_chunk_request uo url ((file.drop cursor).take chunkSize) progress
            :: tr) r p
        | r => r) := by
  refine ⟨patch_response_outcome_409 resp, patch_response_outcome_404 resp,
    patch_response_outcome_other resp, ?_, ?_, ?_, ?_⟩
  · intro h204 hoff
    rw [patch_response_outcome_204 resp h204, hoff]
  · intro v h204 hoff hp
    rw [patch_response_outcome_204 resp h204, hoff]
    dsimp only
    rw [hp]
  · intro v n h204 hoff hp
    rw [patch_response_outcome_204 resp h204, hoff]
    dsimp only
    rw [hp]
  · intro n fuel uo url file chunkSize server idx cursor progress hserver hlen hout hn
    rw [uploadLoop]
    dsimp only
    rw [if_neg hlen, hserver, hout]
    dsimp only
    rw [if_neg (by omega)]

theorem claim_C2_witness :
    patch_response_outcome ⟨[], 409⟩ = .error .WrongUploadOffsetError ∧
    patch_response_outcome ⟨[], 404⟩ = .error .NotFoundError ∧
    patch_response_outcome ⟨[], 500⟩ = .error (.UnexpectedStatusCode 500) ∧
    patch_response_outcome ⟨[], 204⟩ = .error (.MissingHeader UPLOAD_OFFSET) ∧
    patch_response_outcome ⟨[(UPLOAD_OFFSET, "x7")], 204⟩ = .error .ParsingError ∧
    patch_response_outcome ⟨[(UPLOAD_OFFSET, "7")], 204⟩ = .ok 7 :=
  ⟨(claim_C2 ⟨[], 409⟩).1 rfl,
   (claim_C2 ⟨[], 404⟩).2.1 rfl,
   (claim_C2 ⟨[], 500⟩).2.2.1 (by decide) (by decide) (by decide),
   (claim_C2 ⟨[], 204⟩).2.2.2.1 rfl rfl,
   (claim_C2 ⟨[(UPLOAD_OFFSET, "x7")], 204⟩).2.2.2.2.1 "x7" rfl (by decide) (by decide),
   (claim_C2 ⟨[(UPLOAD_OFFSET, "7")], 204⟩).2.2.2.2.2.1 "7" 7 rfl (by decide) (by decide)⟩

/-- C4: a declared total size disagreeing with the local file length fails
with `UnequalSizeError` before any PATCH exchange is sent (empty trace), and
when no total size is declared the upload never produces
`UnequalSizeError`. -/
theorem claim_C4 (fuel : Nat) (uo : Bool) (url : String) (file : List Nat)
    (chunkSize : Nat) (inspect : HttpResponse) (server : Nat → HttpResponse)
    (info : UploadInfo) (hinfo : get_info inspect = some (.ok info)) :
    (∀ ts, info.total_size = some ts → ts ≠ file.length →
      upload_with_chunk_size fuel uo url file chunkSize inspect server =
        .done [] (.error .UnequalSizeError) info.bytes_uploaded) ∧
    (info.total_size = none →
      ∀ tr p, upload_with_chunk_size fuel uo url file chunkSize inspect server ≠
        .done tr (.error .UnequalSizeError) p) := by
  constructor
  · intro ts hts hne
    unfold upload_with_chunk_size
    rw [hinfo]
    dsimp only
    rw [hts]
    dsimp only
    rw [if_pos (by omega)]
  · intro hts tr p
    unfold upload_with_chunk_size
    rw [hinfo]
    dsimp only
    rw [hts]
    exact uploadLoop_ne_unequal uo url file chunkSize server fuel 0 info.bytes_uploaded
      info.bytes_uploaded tr p

theorem claim_C4_witness :
    upload_with_chunk_size 100 false "/r" (List.range 99) 10
        ⟨[("upload-offset", "0"), ("upload-length", "100")], 200⟩ (fun _ => ⟨[], 204⟩) =
      .done [] (.error .UnequalSizeError) 0 ∧
    upload_with_chunk_size 4 false "/r" [1, 2, 3] 1 (inspectResp 0)
        (fun _ => ⟨[], 409⟩) ≠ .done [] (.error .UnequalSizeError) 0 := by
  constructor
  · exact (claim_C4 100 false "/r" (List.range 99) 10
      ⟨[("upload-offset", "0"), ("upload-length", "100")], 200⟩ (fun _ => ⟨[], 204⟩)
      ⟨0, some 100, none⟩ (by decide)).1 100 rfl (by decide)
  · exact (claim_C4 4 false "/r" [1, 2, 3] 1 (inspectResp 0) (fun _ => ⟨[], 409⟩)
      ⟨0, none, none⟩ (by decide)).2 rfl [] 0

/-- C10: the transfer loop terminates for every response stream: with fuel
exceeding the number of unread bytes the fuel is never exhausted (each
iteration returns or consumes at least one byte of the bounded file), and the
top-level upload run with fuel `file.length + 1` never runs out, even against
a server whose acknowledged offsets never reach the file length. -/
theorem claim_C10 (uo : Bool) (url : String) (file : List Nat) (chunkSize : Nat)
    (server : Nat → HttpResponse) :
    (∀ fuel idx cursor progress, file.length - cursor < fuel →
      uploadLoop fuel uo url file chunkSize server idx cursor progress ≠ .out) ∧
    (∀ inspect, upload_with_chunk_size (file.length + 1) uo url file chunkSize inspect
      server ≠ .out) := by
  refine ⟨uploadLoop_ne_out uo url file chunkSize server, fun inspect => ?_⟩
  unfold upload_with_chunk_size
  cases hgi : get_info inspect with
  | none => exact fun hx => UploadResult.noConfusion hx
  | some r =>
    cases r with
    | error e => exact fun hx => UploadResult.noConfusion hx
    | ok info =>
      dsimp only
      cases hts : info.total_size with
      | some ts =>
        dsimp only
        split
        · exact fun hx => UploadResult.noConfusion hx
        · exact uploadLoop_ne_out uo url file chunkSize server _ _ _ _ (by omega)
      | none => exact uploadLoop_ne_out uo url file chunkSize server _ _ _ _ (by omega)

theorem claim_C10_witness :
    uploadLoop 4 false "/r" [1, 2, 3] 1 (fun _ => ⟨[(UPLOAD_OFFSET, "0")], 204⟩)
      0 0 0 ≠ .out ∧
    upload_with_chunk_size 4 false "/r" [1, 2, 3] 1 (inspectResp 0)
      (fun _ => ⟨[(UPLOAD_OFFSET, "0")], 204⟩) ≠ .out := by
  constructor
  · exact (claim_C10 false "/r" [1, 2, 3] 1
      (fun _ => ⟨[(UPLOAD_OFFSET, "0")], 204⟩)).1 4 0 0 0 (by decide)
  · exact (claim_C10 false "/r" [1, 2, 3] 1
      (fun _ => ⟨[(UPLOAD_OFFSET, "0")], 204⟩)).2 (inspectResp 0)

/-- C3 counterexample: on a 404 response whose upload-metadata header is valid
base64 of invalid UTF-8 (`"/w=="` decodes to the byte 0xFF), `get_info` does
not fail with `NotFoundError` as the claim requires — it panics in
`String::from_utf8(..).unwrap()` (modelled as `none`), because the metadata is
decoded before the status check. -/
theorem claim_C3_counterexample :
    statusStartsWith4 404 = true ∧
    get_info ⟨[(UPLOAD_METADATA, "/w==")], 404⟩ = none ∧
    get_info ⟨[(UPLOAD_METADATA, "/w==")], 404⟩ ≠ some (.error .NotFoundError) :=
  ⟨by decide, by decide, by decide⟩

/-- C3 (amended): for every response whose metadata does not trigger the
UTF-8 unwrap panic, `get_info` fails with `NotFoundError` exactly when the
first decimal digit of the status is 4 or the upload-offset header is absent;
otherwise it parses the offset (`ParsingError` on a malformed integer) and
returns an `UploadInfo` whose total size is silently `none` for an absent or
malformed upload-length header and whose metadata is `none` for an absent
upload-metadata header. -/
theorem claim_C3 (resp : HttpResponse) (hm : respMetaRaw resp ≠ some .utf8Panic) :
    (get_info resp = some (.error .NotFoundError) ↔
      (statusStartsWith4 resp.status_code = true ∨
        get_by_key resp.headers UPLOAD_OFFSET = none)) ∧
    (∀ v, statusStartsWith4 resp.status_code = false →
      get_by_key resp.headers UPLOAD_OFFSET = some v → parseUsize v = none →
      get_info resp = some (.error .ParsingError)) ∧
    (∀ v n, statusStartsWith4 resp.status_code = false →
      get_by_key resp.headers UPLOAD_OFFSET = some v → parseUsize v = some n →
      get_info resp = some (.ok ⟨n, respTotalSize resp, respMetaField resp⟩)) ∧
    (get_by_key resp.headers UPLOAD_LENGTH = none → respTotalSize resp = none) ∧
    (∀ w, get_by_key resp.headers UPLOAD_LENGTH = some w → parseUsize w = none →
      respTotalSize resp = none) ∧
    (get_by_key resp.headers UPLOAD_METADATA = none → respMetaField resp = none) := by
  refine ⟨⟨?_, get_info_of_not_found resp hm⟩, ?_, ?_, ?_, ?_, ?_⟩
  · intro h
    by_cases h4 : statusStartsWith4 resp.status_code = true
    · exact Or.inl h4
    · right
      by_contra hoff
      obtain ⟨v, hv⟩ := Option.ne_none_iff_exists'.mp hoff
      have h4f : statusStartsWith4 resp.status_code = false := by
        cases hx : statusStartsWith4 resp.status_code
        · rfl
        · exact absurd hx h4
      rw [get_info_of_offset resp v hm h4f hv] at h
      cases hp : parseUsize v <;> rw [hp] at h <;> simp at h
  · intro v h4 hoff hp
    rw [get_info_of_offset resp v hm h4 hoff, hp]
  · intro v n h4 hoff hp
    exact get_info_of_ok resp v n hm h4 hoff hp
  · intro h
    unfold respTotalSize
    rw [h]
    rfl
  · intro w hw hp
    unfold respTotalSize
    rw [hw]
    exact hp
  · intro h
    unfold respMetaField respMetaRaw
    rw [h]
    rfl

theorem claim_C3_witness :
    get_info ⟨[], 404⟩ = some (.error .NotFoundError) ∧
    get_info ⟨[("upload-offset", "abc")], 200⟩ = some (.error .ParsingError) ∧
    get_info ⟨[("upload-offset", "5"), ("upload-length", "bad")], 200⟩ =
      some (.ok ⟨5, none, none⟩) := by
  refine ⟨?_, ?_, ?_⟩
  · exact (claim_C3 ⟨[], 404⟩ (by decide)).1.mpr (Or.inl (by decide))
  · exact (claim_C3 ⟨[("upload-offset", "abc")], 200⟩ (by decide)).2.1 "abc" (by decide)
      (by decide) (by decide)
  · have h := (claim_C3 ⟨[("upload-offset", "5"), ("upload-length", "bad")], 200⟩
      (by decide)).2.2.1 "5" 5 (by decide) (by decide) (by decide)
    have ht := (claim_C3 ⟨[("upload-offset", "5"), ("upload-length", "bad")], 200⟩
      (by decide)).2.2.2.2.1 "bad" (by decide) (by decide)
    have hmf := (claim_C3 ⟨[("upload-offset", "5"), ("upload-length", "bad")], 200⟩
      (by decide)).2.2.2.2.2 (by decide)
    rw [ht, hmf] at h
    exact h

/-- C5 counterexample: when base64 decoding of the upload-metadata value
fails, the operation does not fail with any error (in particular the claimed
`DecodeError`, which does not even exist in the code's error type): the
metadata is silently dropped and `get_info` succeeds with `metadata = none`. -/
theorem claim_C5_counterexample :
    base64Decode "!!!!" = none ∧
    get_info ⟨[(UPLOAD_OFFSET, "7"), (UPLOAD_METADATA, "!!!!")], 200⟩ =
      some (.ok ⟨7, none, none⟩) :=
  ⟨by decide, by decide⟩

/-- C5 (amended): decoding an upload-metadata value base64-decodes the entire
value once, interprets the bytes as UTF-8 text, splits it on `;`, splits each
entry on the first `:` (an entry with no `:` maps the key to the empty
string), and a trailing `;` yields one extra empty-key/empty-value entry; but
a base64 failure silently yields an absent metadata map instead of an error,
and a UTF-8 failure panics in `unwrap` instead of returning an error (no
`DecodeError` exists). -/
theorem claim_C5 :
    (∀ v, base64Decode v = none → decode_metadata v = .b64Fail) ∧
    (∀ resp v, get_by_key resp.headers UPLOAD_METADATA = some v →
      base64Decode v = none → respMetaField resp = none) ∧
    (∀ v bytes, base64Decode v = some bytes → utf8DecodeString bytes = none →
      decode_metadata v = .utf8Panic) ∧
    (∀ resp, respMetaRaw resp = some .utf8Panic → get_info resp = none) ∧
    (∀ v bytes s, base64Decode v = some bytes → utf8DecodeString bytes = some s →
      decode_metadata v = .ok (metaFold s)) ∧
    metaFold "k:v:w" = [("k", "v:w")] ∧
    metaFold "a;b:2" = [("a", ""), ("b", "2")] ∧
    decode_metadata (base64Encode (utf8Encode "a:b;")) = .ok [("a", "b"), ("", "")] ∧
    decode_metadata (base64Encode (utf8Encode "key_one:value_one;key_two:value_two;k")) =
      .ok [("key_one", "value_one"), ("key_two", "value_two"), ("k", "")] := by
  refine ⟨?_, ?_, ?_, get_info_of_panic, ?_, by decide, by decide, by decide, by decide⟩
  · intro v h
    unfold decode_metadata
    rw [h]
  · intro resp v hv hb
    have hdec : decode_metadata v = .b64Fail := by
      unfold decode_metadata
      rw [hb]
    unfold respMetaField respMetaRaw
    rw [hv]
    dsimp only [Option.map]
    rw [hdec]
  · intro v bytes hb hu
    unfold decode_metadata
    rw [hb]
    dsimp only
    rw [hu]
  · intro v bytes s hb hs
    unfold decode_metadata
    rw [hb]
    dsimp only
    rw [hs]

theorem claim_C5_witness :
    decode_metadata "!!!!" = .b64Fail ∧
    respMetaField ⟨[(UPLOAD_METADATA, "!!!!")], 200⟩ = none ∧
    decode_metadata "/w==" = .utf8Panic ∧
    get_info ⟨[(UPLOAD_METADATA, "/w==")], 200⟩ = none ∧
    decode_metadata "azp2" = .ok (metaFold "k:v") := by
  refine ⟨?_, ?_, ?_, ?_, ?_⟩
  · exact (claim_C5).1 "!!!!" (by decide)
  · exact (claim_C5).2.1 ⟨[(UPLOAD_METADATA, "!!!!")], 200⟩ "!!!!" (by decide) (by decide)
  · exact (claim_C5).2.2.1 "/w==" [255] (by decide) (by decide)
  · exact (claim_C5).2.2.2.1 ⟨[(UPLOAD_METADATA, "/w==")], 200⟩ (by decide)
  · exact (claim_C5).2.2.2.2.1 "azp2" [107, 58, 118] "k:v" (by decide) (by decide)

/-- C6: metadata encoding on create emits `"{key} {base64(value)}"` pairs
joined by `,`; an empty mapping omits the upload-metadata header entirely; and
decode is not a left inverse of encode: decoding the encoded form of the
non-empty mapping `{"k": "v"}` does not give the mapping back (the space and
padding make the encoded form invalid base64 for the decode direction). -/
theorem claim_C6 :
    (∀ fileLen, get_by_key (create_headers fileLen []) UPLOAD_METADATA = none) ∧
    (∀ fileLen m, m ≠ [] →
      get_by_key (create_headers fileLen m) UPLOAD_METADATA =
        some (encode_metadata m)) ∧
    encode_metadata [("k", "v")] = "k dg==" ∧
    encode_metadata [("a", "bc"), ("d", "e")] = "a YmM=,d ZQ==" ∧
    decode_metadata (encode_metadata [("k", "v")]) = .b64Fail ∧
    decode_metadata (encode_metadata [("k", "v")]) ≠ .ok [("k", "v")] := by
  refine ⟨?_, ?_, by decide, by decide, by decide, by decide⟩
  · intro fileLen
    rw [create_headers_nil]
    rw [get_by_key_cons, if_neg (by decide), get_by_key_cons, if_neg (by decide),
      get_by_key_nil]
  · intro fileLen m hm
    cases m with
    | nil => exact absurd rfl hm
    | cons kv rest =>
      rw [create_headers_cons]
      rw [get_by_key_cons, if_neg (by decide), get_by_key_cons, if_neg (by decide),
        get_by_key_cons, if_pos (by decide)]

theorem claim_C6_witness :
    get_by_key (create_headers 42 []) UPLOAD_METADATA = none ∧
    get_by_key (create_headers 42 [("k", "v")]) UPLOAD_METADATA = some "k dg==" := by
  constructor
  · exact (claim_C6).1 42
  · have h := (claim_C6).2.1 42 [("k", "v")] (by decide)
    rw [(claim_C6).2.2.1] at h
    exact h

/-! ## Per-request tus-resumable lemmas (claim C7) -/

theorem get_by_key_append_left (m1 m2 : List (String × String)) (key v : String)
    (h : get_by_key m1 key = some v) : get_by_key (m1 ++ m2) key = some v := by
  induction m1 with
  | nil => rw [get_by_key_nil] at h; exact absurd h (by simp)
  | cons kv rest ih =>
    obtain ⟨k1, v1⟩ := kv
    rw [List.cons_append, get_by_key_cons]
    rw [get_by_key_cons] at h
    by_cases hk : lowerString k1 = key
    · rw [if_pos hk] at h ⊢
      exact h
    · rw [if_neg hk] at h ⊢
      exact ih h

theorem create_headers_resumable (fileLen : Nat) (m : List (String × String)) :
    get_by_key (create_headers fileLen m) TUS_RESUMABLE = some "1.0.0" := by
  cases m with
  | nil => rw [create_headers_nil, get_by_key_cons, if_pos (by decide)]
  | cons kv rest => rw [create_headers_cons, get_by_key_cons, if_pos (by decide)]

theorem create_headers_no_override (fileLen : Nat) (m : List (String × String)) :
    (create_headers fileLen m).any (fun p => p.1 = X_HTTP_METHOD_OVERRIDE) = false := by
  cases m with
  | nil =>
    rw [create_headers_nil]
    simp only [List.any_cons, List.any_nil, Bool.or_eq_false_iff, decide_eq_false_iff_not]
    exact ⟨by decide, by decide, trivial⟩
  | cons kv rest =>
    rw [create_headers_cons]
    simp only [List.any_cons, List.any_nil, Bool.or_eq_false_iff, decide_eq_false_iff_not]
    exact ⟨by decide, by decide, by decide, trivial⟩

theorem create_upload_headers_no_override (progress : Nat) :
    (create_upload_headers progress).any (fun p => p.1 = X_HTTP_METHOD_OVERRIDE)
      = false := by
  rw [create_upload_headers_eq]
  simp only [List.any_cons, List.any_nil, Bool.or_eq_false_iff, decide_eq_false_iff_not]
  exact ⟨by decide, by decide, by decide, trivial⟩

theorem get_info_request_resumable (uo : Bool) (url : String) :
    get_by_key (get_info_request uo url).headers TUS_RESUMABLE = some "1.0.0" := by
  cases uo
  · show get_by_key default_headers TUS_RESUMABLE = some "1.0.0"
    decide
  · show get_by_key (insertKV default_headers X_HTTP_METHOD_OVERRIDE "Head")
      TUS_RESUMABLE = some "1.0.0"
    decide

theorem delete_request_resumable (uo : Bool) (url : String) :
    get_by_key (delete_request uo url).headers TUS_RESUMABLE = some "1.0.0" := by
  cases uo
  · show get_by_key default_headers TUS_RESUMABLE = some "1.0.0"
    decide
  · show get_by_key (insertKV default_headers X_HTTP_METHOD_OVERRIDE "Delete")
      TUS_RESUMABLE = some "1.0.0"
    decide

theorem create_op_request_resumable (uo : Bool) (url : String) (fileLen : Nat)
    (m : List (String × String)) :
    get_by_key (create_op_request uo url fileLen m).headers TUS_RESUMABLE =
      some "1.0.0" := by
  cases uo
  · exact create_headers_resumable fileLen m
  · show get_by_key (insertKV (create_headers fileLen m) X_HTTP_METHOD_OVERRIDE "Post")
      TUS_RESUMABLE = some "1.0.0"
    rw [insertKV_of_absent _ _ _ (create_headers_no_override fileLen m)]
    exact get_by_key_append_left _ _ _ _ (create_headers_resumable fileLen m)

theorem create_upload_headers_resumable (progress : Nat) :
    get_by_key (create_upload_headers progress) TUS_RESUMABLE = some "1.0.0" := by
  rw [create_upload_headers_eq, get_by_key_cons, if_pos (by decide)]

theorem upload_chunk_request_resumable (uo : Bool) (url : String) (chunk : List Nat)
    (progress : Nat) :
    get_by_key (upload_chunk_request uo url chunk progress).headers TUS_RESUMABLE =
      some "1.0.0" := by
  cases uo
  · exact create_upload_headers_resumable progress
  · show get_by_key (insertKV (create_upload_headers progress) X_HTTP_METHOD_OVERRIDE
      "Patch") TUS_RESUMABLE = some "1.0.0"
    rw [insertKV_of_absent _ _ _ (create_upload_headers_no_override progress)]
    exact get_by_key_append_left _ _ _ _ (create_upload_headers_resumable progress)

theorem uploadLoop_trace_resumable (uo : Bool) (url : String) (file : List Nat)
    (chunkSize : Nat) (server : Nat → HttpResponse) :
    ∀ fuel idx cursor progress tr r p,
      uploadLoop fuel uo url file chunkSize server idx cursor progress = .done tr r p →
      ∀ req ∈ tr, get_by_key req.headers TUS_RESUMABLE = some "1.0.0" := by
  intro fuel
  induction fuel with
  | zero =>
    intro idx cursor progress tr r p h
    rw [uploadLoop] at h
    exact absurd h (by simp)
  | succ fuel ih =>
    intro idx cursor progress tr r p h
    rw [uploadLoop] at h
    dsimp only at h
    split at h
    · cases h
      intro req hreq
      simp at hreq
    · split at h
      · cases h
        intro req hreq
        rw [List.mem_singleton] at hreq
        rw [hreq]
        exact upload_chunk_request_resumable uo url _ progress
      · split at h
        · cases h
          intro req hreq
          rw [List.mem_singleton] at hreq
          rw [hreq]
          exact upload_chunk_request_resumable uo url _ progress
        · rename_i newProgress hout hcont
          cases hr : uploadLoop fuel uo url file chunkSize server (idx + 1)
              (cursor + ((file.drop cursor).take chunkSize).length) newProgress with
          | panic => rw [hr] at h; exact absurd h (by simp)
          | out => rw [hr] at h; exact absurd h (by simp)
          | done tr' r' p' =>
            rw [hr] at h
            dsimp only at h
            cases h
            intro req hreq
            rcases List.mem_cons.mp hreq with hh | hh
            · rw [hh]
              exact upload_chunk_request_resumable uo url _ progress
            · exact ih (idx + 1) (cursor + ((file.drop cursor).take chunkSize).length)
                newProgress _ _ _ hr req hh

/-- C7 counterexample: the OPTIONS request built by `get_server_info` carries
no headers at all — in particular no tus-resumable header — while the claim
requires every request of every operation to carry it. -/
theorem claim_C7_counterexample :
    (get_server_info_request false "/files").headers = [] ∧
    get_by_key (get_server_info_request false "/files").headers TUS_RESUMABLE = none ∧
    get_by_key (get_info_request false "/files").headers TUS_RESUMABLE =
      some "1.0.0" :=
  ⟨by decide, by decide, by decide⟩

/-- C7 (amended): every request issued by `get_info`, the upload PATCH loop,
`create`, and `delete` carries the tus-resumable header with value "1.0.0"
(in both override modes), but the OPTIONS request issued by `get_server_info`
carries no tus-resumable header, because that operation passes no headers to
the request builder. -/
theorem claim_C7 :
    (∀ uo url, get_by_key (get_info_request uo url).headers TUS_RESUMABLE =
      some "1.0.0") ∧
    (∀ uo url, get_by_key (delete_request uo url).headers TUS_RESUMABLE =
      some "1.0.0") ∧
    (∀ uo url fileLen m, get_by_key (create_op_request uo url fileLen m).headers
      TUS_RESUMABLE = some "1.0.0") ∧
    (∀ uo url chunk progress, get_by_key
      (upload_chunk_request uo url chunk progress).headers TUS_RESUMABLE =
      some "1.0.0") ∧
    (∀ fuel uo url file chunkSize server idx cursor progress tr r p,
      uploadLoop fuel uo url file chunkSize server idx cursor progress = .done tr r p →
      ∀ req ∈ tr, get_by_key req.headers TUS_RESUMABLE = some "1.0.0") ∧
    (∀ uo url, get_by_key (get_server_info_request uo url).headers TUS_RESUMABLE =
      none) := by
  refine ⟨get_info_request_resumable, delete_request_resumable,
    create_op_request_resumable, upload_chunk_request_resumable,
    ?_, ?_⟩
  · intro fuel uo url file chunkSize server idx cursor progress tr r p h
    exact uploadLoop_trace_resumable uo url file chunkSize server fuel idx cursor
      progress tr r p h
  · intro uo url
    cases uo
    · show get_by_key [] TUS_RESUMABLE = none
      decide
    · show get_by_key (insertKV [] X_HTTP_METHOD_OVERRIDE "Options") TUS_RESUMABLE = none
      decide

theorem claim_C7_witness :
    get_by_key (get_info_request true "/u").headers TUS_RESUMABLE = some "1.0.0" ∧
    get_by_key (delete_request true "/u").headers TUS_RESUMABLE = some "1.0.0" ∧
    get_by_key (create_op_request true "/u" 9 [("k", "v")]).headers TUS_RESUMABLE =
      some "1.0.0" ∧
    get_by_key (upload_chunk_request true "/u" [1] 5).headers TUS_RESUMABLE =
      some "1.0.0" ∧
    (∀ req ∈ [upload_chunk_request false "/u" [1] 0],
      get_by_key req.headers TUS_RESUMABLE = some "1.0.0") ∧
    get_by_key (get_server_info_request true "/u").headers TUS_RESUMABLE = none := by
  refine ⟨(claim_C7).1 true "/u", (claim_C7).2.1 true "/u",
    (claim_C7).2.2.1 true "/u" 9 [("k", "v")],
    (claim_C7).2.2.2.1 true "/u" [1] 5, ?_, (claim_C7).2.2.2.2.2 true "/u"⟩
  exact (claim_C7).2.2.2.2.1 2 false "/u" [1] 1
    (fun _ => ⟨[(UPLOAD_OFFSET, "1")], 204⟩) 0 0 0
    [upload_chunk_request false "/u" [1] 0] (.ok ()) 1 (by decide)

/-- C8: `get_server_info` on a successful (200/204) response requires the
tus-version header: its absence is the `.unwrap()` panic (modelled `none`),
not a returned error value; when present, the supported versions are the
comma-separated tokens in server order, and absent tus-extension /
tus-max-size headers yield an empty extension list and `none` respectively
rather than an error. -/
theorem claim_C8 (resp : HttpResponse)
    (hst : resp.status_code = 200 ∨ resp.status_code = 204) :
    (get_by_key resp.headers TUS_VERSION = none → get_server_info resp = none) ∧
    (∀ v, get_by_key resp.headers TUS_VERSION = some v →
      ∃ si, get_server_info resp = some (.ok si) ∧
        si.supported_versions = splitString ',' v ∧
        (get_by_key resp.headers TUS_EXTENSION = none → si.extensions = []) ∧
        (get_by_key resp.headers TUS_MAX_SIZE = none → si.max_upload_size = none)) := by
  constructor
  · intro hv
    unfold get_server_info
    rw [if_pos hst, hv]
  · intro v hv
    unfold get_server_info
    rw [if_pos hst, hv]
    dsimp only
    refine ⟨_, rfl, rfl, ?_, ?_⟩
    · intro h
      dsimp only
      rw [h]
    · intro h
      dsimp only
      rw [h]
      rfl

theorem claim_C8_witness :
    get_server_info ⟨[], 200⟩ = none ∧
    ∃ si, get_server_info ⟨[("tus-version", "1.0.0,0.2.2")], 204⟩ = some (.ok si) ∧
      si.supported_versions = splitString ',' "1.0.0,0.2.2" ∧
      si.extensions = [] ∧
      si.max_upload_size = none := by
  constructor
  · exact (claim_C8 ⟨[], 200⟩ (Or.inl rfl)).1 (by decide)
  · obtain ⟨si, h1, h2, h3, h4⟩ := (claim_C8 ⟨[("tus-version", "1.0.0,0.2.2")], 204⟩
      (Or.inr rfl)).2 "1.0.0,0.2.2" (by decide)
    exact ⟨si, h1, h2, h3 (by decide), h4 (by decide)⟩

/-- C9: in method-override mode every logical PATCH/DELETE request is
physically sent as POST, with the intended verb recorded in the
x-http-method-override header, while the url, body and all other headers are
exactly those of the non-override mode; the mode is a constructor-time flag
threaded to every call. -/
theorem claim_C9 (m : HttpMethod) (_hm : m = .Patch ∨ m = .Delete) (url : String)
    (body : Option (List Nat)) (hs : Option (List (String × String))) :
    (create_request true m url body hs).method = .Post ∧
    (create_request false m url body hs).method = m ∧
    (create_request true m url body hs).url = (create_request false m url body hs).url ∧
    (create_request true m url body hs).body =
      (create_request false m url body hs).body ∧
    (create_request true m url body hs).headers =
      insertKV (create_request false m url body hs).headers X_HTTP_METHOD_OVERRIDE
        (methodToString m) ∧
    (∀ chunk progress, get_by_key (upload_chunk_request true url chunk progress).headers
      X_HTTP_METHOD_OVERRIDE = some (methodToString .Patch)) ∧
    get_by_key (delete_request true url).headers X_HTTP_METHOD_OVERRIDE =
      some (methodToString .Delete) := by
  refine ⟨rfl, rfl, rfl, rfl, rfl, ?_, ?_⟩
  · intro chunk progress
    show get_by_key (insertKV (create_upload_headers progress) X_HTTP_METHOD_OVERRIDE
      "Patch") X_HTTP_METHOD_OVERRIDE = some "Patch"
    rw [insertKV_of_absent _ _ _ (create_upload_headers_no_override progress)]
    rw [create_upload_headers_eq]
    show get_by_key [(TUS_RESUMABLE, "1.0.0"),
      (CONTENT_TYPE, "application/offset+octet-stream"),
      (UPLOAD_OFFSET, natToString progress),
      (X_HTTP_METHOD_OVERRIDE, "Patch")] X_HTTP_METHOD_OVERRIDE = some "Patch"
    rw [get_by_key_cons, if_neg (by decide), get_by_key_cons, if_neg (by decide),
      get_by_key_cons, if_neg (by decide), get_by_key_cons, if_pos (by decide)]
  · show get_by_key (insertKV default_headers X_HTTP_METHOD_OVERRIDE "Delete")
      X_HTTP_METHOD_OVERRIDE = some "Delete"
    decide

theorem claim_C9_witness :
    (create_request true .Patch "/u" (some [1, 2]) (some [("a", "b")])).method =
      .Post ∧
    (create_request false .Patch "/u" (some [1, 2]) (some [("a", "b")])).method =
      .Patch ∧
    (create_request true .Patch "/u" (some [1, 2]) (some [("a", "b")])).body =
      (create_request false .Patch "/u" (some [1, 2]) (some [("a", "b")])).body ∧
    get_by_key (upload_chunk_request true "/u" [1] 3).headers X_HTTP_METHOD_OVERRIDE =
      some "Patch" ∧
    get_by_key (delete_request true "/u").headers X_HTTP_METHOD_OVERRIDE =
      some "Delete" := by
  have h := claim_C9 .Patch (Or.inl rfl) "/u" (some [1, 2]) (some [("a", "b")])
  have hd := claim_C9 .Delete (Or.inr rfl) "/u" none none
  exact ⟨h.1, h.2.1, h.2.2.2.1, h.2.2.2.2.2.1 [1] 3, hd.2.2.2.2.2.2⟩

end Tus
